import Mathlib

/-!
Verification development for the `GridWorld` environment of
`src/environments/grid_world.py` (RiskAwareTransferRL).

The shallow embedding below translates the Python class into Lean:
Python ints become `Int` (grid coordinates and encoded states),
float probabilities and rewards become `ℚ`, Python lists become `List`,
and the instance state threaded through `step`/`reset` is passed
explicitly.  Python list indexing (which wraps negative indices and
raises `IndexError` out of range) is modelled by `pyGet`/`pySet`
returning `Option`.  Randomness (the `np.random` draws) is modelled by
passing the drawn value explicitly: `step` takes the sampled action and
a seed for the reward sample, `reset` takes the accepted random draw.
-/

namespace GridWorldSpec

/-- Modelled from the spec: the reward-distribution primitive
(`StochasticReward`, imported from outside `src/`) is an external
collaborator; "given a distribution object, it must expose
`sample() -> value`, `expected_value() -> float`,
`expected_value_squared() -> float`, `variance() -> float`".
`sample` is seed-indexed to model the random draw; the Python
`sample()[0]` (first element of the returned array) is modelled as the
returned value itself. -/
structure StochasticReward where
  sample : Nat → ℚ
  expected_value : ℚ
  expected_value_squared : ℚ
  variance : ℚ

/-- Modelled from the spec: `StochasticReward(v, deterministic=True, mean=v)`
is a deterministic point mass at `v` (spec §4.1: numeric rewards are
"wrapped as deterministic distributions"). -/
def detReward (v : ℚ) : StochasticReward :=
  { sample := fun _ => v
    expected_value := v
    expected_value_squared := v * v
    variance := 0 }

/-- Python list indexing `l[i]`: wraps one length of negative index,
`IndexError` (here `none`) otherwise. -/
def pyGet {α : Type} (l : List α) (i : Int) : Option α :=
  if 0 ≤ i then l[i.toNat]?
  else if 0 ≤ (l.length : Int) + i then l[((l.length : Int) + i).toNat]?
  else none

/-- Python list assignment `l[i] = a`: wraps one length of negative
index, `IndexError` (here `none`) otherwise. -/
def pySet {α : Type} (l : List α) (i : Int) (a : α) : Option (List α) :=
  if 0 ≤ i then
    if i.toNat < l.length then some (l.set i.toNat a) else none
  else if 0 ≤ (l.length : Int) + i then
    some (l.set ((l.length : Int) + i).toNat a)
  else none

/-- The state of a constructed `GridWorld` object: the instance fields
set by `__init__` that the runtime methods read. -/
structure GridWorld where
  height : Int
  width : Int
  actions : List Nat
  transition_probabilities : List ℚ
  terminal_states : List (Int × Int)
  barrier_states : List (Int × Int)
  initial_state : Option (Int × Int)
  rewards : List (List StochasticReward)
  task : String
  distinct_rewards : Nat

/-- `self.n_states = self.height * self.width`. -/
def n_states (g : GridWorld) : Int := g.height * g.width

/-- `self.n_actions = len(self.actions)`. -/
def n_actions (g : GridWorld) : Nat := g.actions.length

/-- `self.transition_probabilities = [proba] + [(1 - proba) / (len(self.actions) - 2)] * (len(self.actions) - 2) + [0]`. -/
def mkTransitionProbabilities (nActions : Nat) (proba : ℚ) : List ℚ :=
  [proba] ++ List.replicate (nActions - 2) ((1 - proba) / ((nActions - 2 : Nat) : ℚ)) ++ [0]

/-- `encode_state`: `return x * self.width + y`. -/
def encode_state (width : Int) (state : Int × Int) : Int :=
  state.1 * width + state.2

/-- `decode_state`: `x = encoded_state // self.width; y = encoded_state % self.width`.
Lean `Int` division/modulo (`ediv`/`emod`) agree with Python `//`/`%`
for the positive divisor `width`. -/
def decode_state (width : Int) (encoded_state : Int) : Int × Int :=
  (encoded_state / width, encoded_state % width)

/-- A coordinate (x, y) lies inside the grid:
`0 ≤ x < width` and `0 ≤ y < height` (spec §3 "Coordinate"). -/
def in_bounds (g : GridWorld) (c : Int × Int) : Prop :=
  0 ≤ c.1 ∧ c.1 < g.width ∧ 0 ≤ c.2 ∧ c.2 < g.height

instance (g : GridWorld) (c : Int × Int) : Decidable (in_bounds g c) := by
  unfold in_bounds; infer_instance

/-- In-grid reward-cell assignment `grid[y][x] = v` as performed by the
constructor; `__init__` asserts its terminal/default indices are
in bounds, so plain in-range `List.set` is faithful there. -/
def setCell (grid : List (List StochasticReward)) (y x : Int)
    (v : StochasticReward) : List (List StochasticReward) :=
  grid.set y.toNat ((grid.getD y.toNat []).set x.toNat v)

/-- The `__init__` constructor (`GridWorld(height, width, rewards, proba,
terminal_states, barrier_states, initial_state, task, distinct_rewards)`)
restricted to the two reward forms the claims exercise: `rewardsArg = none`
(the default-rewards path) and `rewardsArg = some grid` (a numeric grid,
wrapped as deterministic distributions).  Optional Python arguments are
`Option`s with the source's defaults. -/
def GridWorld.make (height : Int) (width : Option Int)
    (rewardsArg : Option (List (List ℚ))) (proba : ℚ)
    (terminal_states barrier_states : Option (List (Int × Int)))
    (initial_state : Option (Int × Int)) (task : Option String)
    (distinct_rewards : Nat) : GridWorld :=
  let w := width.getD height
  let acts : List Nat := [0, 1, 2, 3]
  let terminal0 := terminal_states.getD []
  let rewTerm :=
    match rewardsArg with
    | none =>
        let base := List.replicate height.toNat
          (List.replicate w.toNat (detReward (-1)))
        if terminal0 ≠ [] then
          (terminal0.foldl
            (fun grid (c : Int × Int) => setCell grid c.2 c.1 (detReward 0)) base,
           terminal0)
        else
          (setCell base (height - 1) (w - 1) (detReward 0),
           [(height - 1, w - 1)])
    | some numeric =>
        (numeric.map (fun (row : List ℚ) => row.map detReward), terminal0)
  { height := height
    width := w
    actions := acts
    transition_probabilities := mkTransitionProbabilities acts.length proba
    terminal_states := rewTerm.2
    barrier_states := barrier_states.getD []
    initial_state := initial_state
    rewards := rewTerm.1
    task := task.getD "Varying Blocks, Same Values"
    distinct_rewards := distinct_rewards }

/-- `self.expected_rewards`: the grid of `reward.expected_value()`. -/
def expected_rewards (g : GridWorld) : List (List ℚ) :=
  g.rewards.map (fun row => row.map (fun r => r.expected_value))

/-- `get_reward`: `return self.rewards[next_state[1]][next_state[0]]`.
The `state` and `action` arguments appear in the Python signature but
are not used. -/
def get_reward (g : GridWorld) (state : Int × Int) (action : Int)
    (next_state : Int × Int) : Option StochasticReward :=
  (pyGet g.rewards next_state.2).bind (fun row => pyGet row next_state.1)

/-- `get_sampled_reward`: `return self.rewards[next_state[1]][next_state[0]].sample()[0]`. -/
def get_sampled_reward (g : GridWorld) (state : Int × Int) (action : Int)
    (next_state : Int × Int) (seed : Nat) : Option ℚ :=
  ((pyGet g.rewards next_state.2).bind (fun row => pyGet row next_state.1)).map
    (fun r => r.sample seed)

/-- `get_expected_reward`: `return self.rewards[next_state[1]][next_state[0]].expected_value()`. -/
def get_expected_reward (g : GridWorld) (state : Int × Int) (action : Int)
    (next_state : Int × Int) : Option ℚ :=
  ((pyGet g.rewards next_state.2).bind (fun row => pyGet row next_state.1)).map
    (fun r => r.expected_value)

/-- `get_expected_reward_squared`. -/
def get_expected_reward_squared (g : GridWorld) (state : Int × Int) (action : Int)
    (next_state : Int × Int) : Option ℚ :=
  ((pyGet g.rewards next_state.2).bind (fun row => pyGet row next_state.1)).map
    (fun r => r.expected_value_squared)

/-- `get_reward_variance`. -/
def get_reward_variance (g : GridWorld) (state : Int × Int) (action : Int)
    (next_state : Int × Int) : Option ℚ :=
  ((pyGet g.rewards next_state.2).bind (fun row => pyGet row next_state.1)).map
    (fun r => r.variance)

/-- `is_terminal_state`: `return state in self.terminal_states`. -/
def is_terminal_state (g : GridWorld) (state : Int × Int) : Bool :=
  decide (state ∈ g.terminal_states)

/-- `move_agent`: the chain of guarded one-cell moves, checking the grid
bound and the barrier list, falling through to "stay in current
position".  `UP = 0, RIGHT = 1, DOWN = 2, LEFT = 3`; the source tests
the branches in the order UP, DOWN, LEFT, RIGHT.  The current position
(`self.state`) is passed explicitly. -/
def move_agent (g : GridWorld) (state : Int × Int) (action : Int) : Int × Int :=
  if action = 0 ∧ state.2 < g.height - 1 ∧
      (state.1, state.2 + 1) ∉ g.barrier_states then
    (state.1, state.2 + 1)
  else if action = 2 ∧ state.2 > 0 ∧
      (state.1, state.2 - 1) ∉ g.barrier_states then
    (state.1, state.2 - 1)
  else if action = 3 ∧ state.1 > 0 ∧
      (state.1 - 1, state.2) ∉ g.barrier_states then
    (state.1 - 1, state.2)
  else if action = 1 ∧ state.1 < g.width - 1 ∧
      (state.1 + 1, state.2) ∉ g.barrier_states then
    (state.1 + 1, state.2)
  else
    (state.1, state.2)

/-- The one-cell destination of `action` from `state` (the candidate
coordinate a successful move would reach; spec §4.3 step 3). -/
def destination (state : Int × Int) (action : Int) : Int × Int :=
  if action = 0 then (state.1, state.2 + 1)
  else if action = 2 then (state.1, state.2 - 1)
  else if action = 3 then (state.1 - 1, state.2)
  else (state.1 + 1, state.2)

/-- `set_action_probabilities`: builds the length-`n_actions` vector of
resolved-action probabilities by four list assignments.  Python's
`(action - 1) % n` on a non-negative `action` equals
`(action + (n - 1)) % n`. -/
def set_action_probabilities (g : GridWorld) (action : Nat) : List ℚ :=
  let n := g.actions.length
  let right_action := g.actions.getD ((action + 1) % n) 0
  let left_action := g.actions.getD ((action + (n - 1)) % n) 0
  let down_action := g.actions.getD ((action + 2) % n) 0
  ((((List.replicate n (0 : ℚ)).set action
      (g.transition_probabilities.getD 0 0)).set
      right_action (g.transition_probabilities.getD 1 0)).set
      left_action (g.transition_probabilities.getD 2 0)).set
      down_action (g.transition_probabilities.getD 3 0)

/-- The tuple `step` returns together with the updated `self.state`
(`new_state`); the transition record appended to `self.transitions` is
recovered from these fields. -/
structure StepResult where
  encoded_state : Int
  reward : Option ℚ
  done : Bool
  new_state : Int × Int

/-- `step(input_action)` after the categorical draw: the action sampled
by `np.random.choice` is passed in as `sampled_action`, and `seed`
addresses the reward draw.  Mirrors the source: move, sample the reward
of the resulting coordinate, test termination, update the state, return
`(encoded_state, reward, done, {})`. -/
def step (g : GridWorld) (state : Int × Int) (sampled_action : Int)
    (seed : Nat) : StepResult :=
  let new_state := move_agent g state sampled_action
  { encoded_state := encode_state g.width new_state
    reward := get_sampled_reward g state sampled_action new_state seed
    done := is_terminal_state g new_state
    new_state := new_state }

/-- `reset`: with a configured `initial_state` the state is set to it;
otherwise the state is the accepted draw of the rejection loop (`draw`
models the first random coordinate not in `terminal_states`). -/
def reset_state (g : GridWorld) (draw : Int × Int) : Int × Int :=
  match g.initial_state with
  | some s => s
  | none => draw

/-- The post-`step` coordinates of an episode: starting from `start`,
perform one `step` per `(sampled_action, seed)` pair and record each
resulting coordinate. -/
def episode_states (g : GridWorld) : Int × Int → List (Int × Nat) → List (Int × Int)
  | _, [] => []
  | s, (a, seed) :: rest =>
      (step g s a seed).new_state :: episode_states g (step g s a seed).new_state rest

/-- Insert a value into an ascending duplicate-free list, keeping it
ascending and duplicate-free. -/
def insertUnique (x : ℚ) : List ℚ → List ℚ
  | [] => [x]
  | y :: ys =>
      if x < y then x :: y :: ys
      else if x = y then y :: ys
      else y :: insertUnique x ys

/-- Modelled from the spec: `np.unique(self.rewards)` is applied to the
grid of reward-distribution objects, whose implementation
(`StochasticReward`) lives outside `src/`; per spec §3 (Mode B) it
yields "the sorted distinct reward values observed in the grid", the
distribution objects comparing by their value — taken here as
`expected_value`, since the grids this runs on hold deterministic point
masses. -/
def npUnique (rewards : List (List StochasticReward)) : List ℚ :=
  (rewards.flatten.map (fun r => r.expected_value)).foldr insertUnique []

/-- `get_weights`, dispatching on `self.task`.  Task
"Same Blocks, Varying Values": the unique reward values, left-padded
with zeros (`np.append(np.zeros(...), weights)`) up to
`distinct_rewards` entries.  Other tasks: a vector indexed by encoded
state `s` holding `expected_rewards[y][x]` for `(x, y) = decode_state(s)`,
i.e. row `s % width`, column `s // width`; those numpy reads raise
`IndexError` (here `none`) when an index falls outside the grid. -/
def get_weights (g : GridWorld) : Option (List ℚ) :=
  if g.task = "Same Blocks, Varying Values" then
    let w := npUnique g.rewards
    some (if w.length < g.distinct_rewards then
        List.replicate (g.distinct_rewards - w.length) (0 : ℚ) ++ w
      else w)
  else
    (List.range (g.height * g.width).toNat).mapM (fun (s : Nat) =>
      (pyGet (expected_rewards g) (decode_state g.width (s : Int)).2).bind
        (fun row => pyGet row (decode_state g.width (s : Int)).1))

/-- `get_feature_vector`.  `self.weights` and `self.n_weights` are the
construction-time value (and length) of `get_weights`.  Task
"Same Blocks, Varying Values": the 0/1 vector marking the weight entries
equal to the reward of the destination cell (`self.weights == reward`,
numpy broadcast equality, by value).  Other tasks: a zero vector of
length `n_weights` with a 1 written at index
`encode_state(next_state)`; that numpy write raises `IndexError`
(here `none`) when the index is outside the vector. -/
def get_feature_vector (g : GridWorld) (state : Int × Int) (action : Int)
    (next_state : Int × Int) : Option (List ℚ) :=
  (get_weights g).bind (fun weights =>
    if g.task = "Same Blocks, Varying Values" then
      (get_reward g state action next_state).map (fun r =>
        weights.map (fun wv => if wv = r.expected_value then (1 : ℚ) else 0))
    else
      pySet (List.replicate weights.length (0 : ℚ))
        (encode_state g.width next_state) 1)

/-- The reward-grid cells read by the constructor's barrier-set scan:
for every encoded state `s` in `range(self.n_states)` it evaluates
`get_expected_reward(decode_state(s), 0, decode_state(s))`, which reads
`rewards[decode_state(s)[1]][decode_state(s)[0]]` — row `s % width`,
column `s // width`. -/
def barrierScanAccesses (height width : Int) : List (Int × Int) :=
  (List.range (height * width).toNat).map
    (fun (s : Nat) => decode_state width (s : Int))

/-- The `GridWorld(height=2, barrier_states=[(0,0)], initial_state=(0,0),
proba=0.8)` construction: an episode that (legally) starts on a barrier
cell. -/
def gBarrierStart : GridWorld :=
  GridWorld.make 2 none none (4 / 5) none (some [(0, 0)]) (some (0, 0)) none 3

/-- Scenario-3 construction: 3x3 grid, `proba = 1.0`, barrier `(1, 2)`,
initial state `(1, 1)`; used by several witnesses. -/
def gBarrierWitness : GridWorld :=
  GridWorld.make 3 none none 1 none (some [(1, 2)]) (some (1, 1)) none 3

/-- The all-default 3x3 construction (`GridWorld(height=3, proba=0.8)`). -/
def gDefault : GridWorld :=
  GridWorld.make 3 none none (4 / 5) none none none none 3

/-- The default-rewards construction on a non-square grid:
`GridWorld(height=2, width=3, proba=0.8)`. -/
def gNonSquareDefault : GridWorld :=
  GridWorld.make 2 (some 3) none (4 / 5) none none none none 3

end GridWorldSpec

namespace GridWorldSpec

/-- C1: for every valid coordinate `c = (x, y)` (`0 ≤ x < width`,
`0 ≤ y < height`), `decode_state (encode_state c) = c`, and for every
encoded state `s` in `[0, height * width)`,
`encode_state (decode_state s) = s`; the two maps are a bijection over
the valid coordinate set.

This is the claim exactly as stated; it fails on the code for
`width = 2, height = 3` at `c = (0, 2)`, see `C1_roundtrip_counterexample`. -/
theorem C1_roundtrip_counterexample :
    (0 : Int) ≤ 0 ∧ (0 : Int) < 2 ∧ (0 : Int) ≤ 2 ∧ (2 : Int) < 3 ∧
    decode_state 2 (encode_state 2 (0, 2)) ≠ (0, 2) := by
  refine ⟨le_refl 0, by norm_num, by norm_num, by norm_num, ?_⟩
  decide

/-- C1 (amended): for a grid with `0 < width` and `height ≤ width`,
`decode_state (encode_state c) = c` for every valid coordinate `c`;
`encode_state (decode_state s) = s` holds for every integer `s`
unconditionally; and when in addition `height = width` the two maps form
a bijection between the valid coordinate set and `[0, height * width)`:
`encode_state` lands in that interval and `decode_state` lands in the
valid coordinate set. -/
theorem C1_roundtrip_amended (width height : Int) (hw : 0 < width)
    (hhw : height ≤ width) (x y : Int) (hx0 : 0 ≤ x) (hx1 : x < width)
    (hy0 : 0 ≤ y) (hy1 : y < height) (s : Int) :
    decode_state width (encode_state width (x, y)) = (x, y) ∧
    encode_state width (decode_state width s) = s ∧
    (height = width → 0 ≤ encode_state width (x, y) ∧
      encode_state width (x, y) < height * width) ∧
    (height = width → 0 ≤ s → s < height * width →
      in_bounds { height := height, width := width, actions := [],
                  transition_probabilities := [], terminal_states := [],
                  barrier_states := [], initial_state := none, rewards := [],
                  task := "", distinct_rewards := 0 }
        (decode_state width s)) := by
  have hwne : width ≠ 0 := ne_of_gt hw
  have hyw : y < width := lt_of_lt_of_le hy1 hhw
  refine ⟨?_, ?_, ?_, ?_⟩
  · show ((x * width + y) / width, (x * width + y) % width) = (x, y)
    have h1 : (x * width + y) / width = x := by
      have := Int.add_mul_ediv_right y x hwne
      rw [show x * width + y = y + x * width by ring, this,
        Int.ediv_eq_zero_of_lt hy0 hyw, zero_add]
    have h2 : (x * width + y) % width = y := by
      rw [show x * width + y = y + x * width by ring,
        Int.add_mul_emod_self, Int.emod_eq_of_lt hy0 hyw]
    rw [h1, h2]
  · show s / width * width + s % width = s
    have h := Int.ediv_add_emod s width
    linarith
  · intro hsq
    constructor
    · have hnn : 0 ≤ x * width := mul_nonneg hx0 (le_of_lt hw)
      show 0 ≤ x * width + y
      linarith
    · show x * width + y < height * width
      have hx1' : x ≤ height - 1 := by omega
      have hmul : x * width ≤ (height - 1) * width :=
        mul_le_mul_of_nonneg_right hx1' (le_of_lt hw)
      have hexp : (height - 1) * width + width = height * width := by ring
      linarith
  · intro hsq hs0 hs1
    have hs1' : s < width * width := by rw [hsq] at hs1; exact hs1
    refine ⟨Int.ediv_nonneg hs0 (le_of_lt hw), ?_, ?_, ?_⟩
    · exact (Int.ediv_lt_iff_lt_mul hw).mpr hs1'
    · exact Int.emod_nonneg s hwne
    · show s % width < height
      rw [hsq]
      exact Int.emod_lt_of_pos s hw

/-- If the current coordinate is not a barrier, `move_agent` never
produces a barrier coordinate: each moving branch tests its destination
against the barrier list, and the fall-through branch keeps the current
coordinate. -/
theorem move_agent_not_barrier (g : GridWorld) (s : Int × Int) (a : Int)
    (hs : s ∉ g.barrier_states) : move_agent g s a ∉ g.barrier_states := by
  unfold move_agent
  split_ifs with h1 h2 h3 h4
  · exact h1.2.2
  · exact h2.2.2
  · exact h3.2.2
  · exact h4.2.2
  · simpa using hs

/-- Episodes that start outside the barrier set never visit a barrier
coordinate after any `step`. -/
theorem episode_states_barrier_free (g : GridWorld) (b : Int × Int)
    (hb : b ∈ g.barrier_states) :
    ∀ (acts : List (Int × Nat)) (s : Int × Int), s ∉ g.barrier_states →
      b ∉ episode_states g s acts := by
  intro acts
  induction acts with
  | nil => intro s _; simp [episode_states]
  | cons head rest ih =>
      intro s hs
      obtain ⟨a, seed⟩ := head
      have hnew : (step g s a seed).new_state ∉ g.barrier_states :=
        move_agent_not_barrier g s a hs
      intro hmem
      rcases List.mem_cons.mp hmem with h | h
      · rw [h] at hb
        exact hnew hb
      · exact ih (step g s a seed).new_state hnew h

/-- C2 fails as stated: `reset` rejects only terminal states and
`initial_state` is not validated, so an episode may start on a barrier
coordinate; a blocked `step` (here sampled action DOWN from the corner)
then returns that barrier coordinate.  Concretely, in a 2x2 grid with
barrier `(0,0)` and initial state `(0,0)`, after one `step` the agent's
coordinate equals the barrier `(0,0)`. -/
theorem C2_barrier_counterexample :
    (0, 0) ∈ gBarrierStart.barrier_states ∧
    (0, 0) ∈ episode_states gBarrierStart
      (reset_state gBarrierStart (1, 0)) [(2, 0)] := by
  constructor
  · decide
  · decide

/-- C2 (amended): for every configured barrier coordinate `b` and every
episode whose starting coordinate (the `reset` result) is not itself a
barrier, no post-`step` coordinate ever equals `b`; `move_agent` never
moves into a barrier, so a barrier can only be occupied by an episode
that started there. -/
theorem C2_barrier_amended (g : GridWorld) (draw : Int × Int)
    (hstart : reset_state g draw ∉ g.barrier_states)
    (acts : List (Int × Nat)) (b : Int × Int)
    (hb : b ∈ g.barrier_states) :
    b ∉ episode_states g (reset_state g draw) acts :=
  episode_states_barrier_free g b hb acts (reset_state g draw) hstart

/-- Witness for `C2_barrier_amended`: 3x3 grid with barrier `(1, 2)` and
start `(1, 1)`; one UP step never reaches the barrier. -/
theorem C2_barrier_amended_witness :
    reset_state gBarrierWitness (0, 0) ∉ gBarrierWitness.barrier_states ∧
    (1, 2) ∈ gBarrierWitness.barrier_states ∧
    (1, 2) ∉ episode_states gBarrierWitness
      (reset_state gBarrierWitness (0, 0)) [(0, 0)] :=
  ⟨by decide, by decide,
    C2_barrier_amended gBarrierWitness (0, 0) (by decide) [(0, 0)] (1, 2)
      (by decide)⟩

/-- C5: for every in-bounds current coordinate and every executed
directional action whose one-cell destination is out of the grid bounds
or lies in the barrier list, `move_agent` returns the unchanged current
coordinate (no error is raised: the embedding is a total function whose
fall-through branch is "stay"), and the reward `step` then samples is
the reward of the current cell (a self-transition). -/
theorem C5_blocked_move (g : GridWorld) (state : Int × Int) (action : Int)
    (seed : Nat) (hs : in_bounds g state)
    (ha : action = 0 ∨ action = 1 ∨ action = 2 ∨ action = 3)
    (hblocked : ¬ in_bounds g (destination state action) ∨
      destination state action ∈ g.barrier_states) :
    move_agent g state action = state ∧
    (step g state action seed).reward =
      get_sampled_reward g state action state seed := by
  obtain ⟨hx0, hx1, hy0, hy1⟩ := hs
  have hmove : move_agent g state action = state := by
    rcases ha with h | h | h | h <;> subst h <;> unfold move_agent
    · rw [show destination state 0 = (state.1, state.2 + 1) from by
        norm_num [destination]] at hblocked
      split_ifs with h1 h2 h3 h4
      · exfalso
        obtain ⟨-, hlt, hnb⟩ := h1
        rcases hblocked with hob | hbar
        · exact hob ⟨hx0, hx1, by omega, by omega⟩
        · exact hnb hbar
      · exact absurd h2.1 (by norm_num)
      · exact absurd h3.1 (by norm_num)
      · exact absurd h4.1 (by norm_num)
      · rfl
    · rw [show destination state 1 = (state.1 + 1, state.2) from by
        norm_num [destination]] at hblocked
      split_ifs with h1 h2 h3 h4
      · exact absurd h1.1 (by norm_num)
      · exact absurd h2.1 (by norm_num)
      · exact absurd h3.1 (by norm_num)
      · exfalso
        obtain ⟨-, hlt, hnb⟩ := h4
        rcases hblocked with hob | hbar
        · exact hob ⟨by omega, by omega, hy0, hy1⟩
        · exact hnb hbar
      · rfl
    · rw [show destination state 2 = (state.1, state.2 - 1) from by
        norm_num [destination]] at hblocked
      split_ifs with h1 h2 h3 h4
      · exact absurd h1.1 (by norm_num)
      · exfalso
        obtain ⟨-, hlt, hnb⟩ := h2
        rcases hblocked with hob | hbar
        · exact hob ⟨hx0, hx1, by omega, by omega⟩
        · exact hnb hbar
      · exact absurd h3.1 (by norm_num)
      · exact absurd h4.1 (by norm_num)
      · rfl
    · rw [show destination state 3 = (state.1 - 1, state.2) from by
        norm_num [destination]] at hblocked
      split_ifs with h1 h2 h3 h4
      · exact absurd h1.1 (by norm_num)
      · exact absurd h2.1 (by norm_num)
      · exfalso
        obtain ⟨-, hlt, hnb⟩ := h3
        rcases hblocked with hob | hbar
        · exact hob ⟨by omega, by omega, hy0, hy1⟩
        · exact hnb hbar
      · exact absurd h4.1 (by norm_num)
      · rfl
  refine ⟨hmove, ?_⟩
  simp only [step]
  rw [hmove]

/-- Witness for `C5_blocked_move`: scenario 3 (barrier `(1,2)`, agent at
`(1,1)`, intended/executed action UP): the agent stays at `(1,1)` and
the step reward is the self-transition reward of cell `(1,1)`. -/
theorem C5_blocked_move_witness :
    in_bounds gBarrierWitness (1, 1) ∧
    destination (1, 1) 0 ∈ gBarrierWitness.barrier_states ∧
    (move_agent gBarrierWitness (1, 1) 0 = (1, 1) ∧
      (step gBarrierWitness (1, 1) 0 0).reward =
        get_sampled_reward gBarrierWitness (1, 1) 0 (1, 1) 0) :=
  ⟨by decide, by decide,
    C5_blocked_move gBarrierWitness (1, 1) 0 0 (by decide) (Or.inl rfl)
      (Or.inr (by decide))⟩

/-- C6: `step` returns `done = true` exactly when the resolved next
coordinate (the result of `move_agent`, also stored as the new
`self.state`) lies in `terminal_states`; in particular the step that
reaches a terminal coordinate returns `done = true`. -/
theorem C6_done_iff_terminal (g : GridWorld) (state : Int × Int)
    (sampled_action : Int) (seed : Nat) :
    (step g state sampled_action seed).done = true ↔
      (step g state sampled_action seed).new_state ∈ g.terminal_states := by
  simp [step, is_terminal_state]

/-- C9: the four reward queries `get_sampled_reward`,
`get_expected_reward`, `get_expected_reward_squared` and
`get_reward_variance` depend only on the destination cell; the `state`
and `action` arguments are accepted and ignored, so any two choices of
them give the same result. -/
theorem C9_reward_queries_ignore_state_action (g : GridWorld)
    (next_state s1 s2 : Int × Int) (a1 a2 : Int) (seed : Nat) :
    get_sampled_reward g s1 a1 next_state seed =
        get_sampled_reward g s2 a2 next_state seed ∧
    get_expected_reward g s1 a1 next_state =
        get_expected_reward g s2 a2 next_state ∧
    get_expected_reward_squared g s1 a1 next_state =
        get_expected_reward_squared g s2 a2 next_state ∧
    get_reward_variance g s1 a1 next_state =
        get_reward_variance g s2 a2 next_state :=
  ⟨rfl, rfl, rfl, rfl⟩

/-- Witness for `C1_roundtrip_amended` at `width = height = 3`,
`c = (2, 1)`, `s = 5`. -/
theorem C1_roundtrip_amended_witness :
    decode_state 3 (encode_state 3 (2, 1)) = (2, 1) ∧
    encode_state 3 (decode_state 3 5) = 5 ∧
    ((3 : Int) = 3 → 0 ≤ encode_state 3 (2, 1) ∧
      encode_state 3 (2, 1) < 3 * 3) ∧
    ((3 : Int) = 3 → (0 : Int) ≤ 5 → (5 : Int) < 3 * 3 →
      in_bounds { height := 3, width := 3, actions := [],
                  transition_probabilities := [], terminal_states := [],
                  barrier_states := [], initial_state := none, rewards := [],
                  task := "", distinct_rewards := 0 }
        (decode_state 3 5)) :=
  C1_roundtrip_amended 3 3 (by norm_num) (le_refl 3) 2 1 (by norm_num)
    (by norm_num) (by norm_num) (by norm_num) 5

/-- C3: with the default 4-action list and
`transition_probabilities = [p, (1-p)/2, (1-p)/2, 0]` from the
constructor, for every intended action `a` in `{0, 1, 2, 3}` and every
`p` in `[0, 1]`, `set_action_probabilities a` is a length-4 vector with
`p` at slot `a`, `(1-p)/2` at slot `(a+1) % 4`, `(1-p)/2` at slot
`(a-1) % 4` (written `(a+3) % 4`, equal to Python's `(a-1) % 4` here),
and `0` at slot `(a+2) % 4`; its entries are all non-negative and sum
to 1. -/
theorem C3_action_probabilities (g : GridWorld) (p : ℚ)
    (hp0 : 0 ≤ p) (hp1 : p ≤ 1) (hact : g.actions = [0, 1, 2, 3])
    (htp : g.transition_probabilities = mkTransitionProbabilities 4 p)
    (a : Nat) (ha : a < 4) :
    (set_action_probabilities g a).length = 4 ∧
    (set_action_probabilities g a).getD a 0 = p ∧
    (set_action_probabilities g a).getD ((a + 1) % 4) 0 = (1 - p) / 2 ∧
    (set_action_probabilities g a).getD ((a + 3) % 4) 0 = (1 - p) / 2 ∧
    (set_action_probabilities g a).getD ((a + 2) % 4) 0 = 0 ∧
    (∀ q ∈ set_action_probabilities g a, 0 ≤ q) ∧
    (set_action_probabilities g a).sum = 1 := by
  have hd : (1 - p) / ((2 : Nat) : ℚ) = (1 - p) / 2 := by norm_num
  interval_cases a
  · have hres : set_action_probabilities g 0 = [p, (1 - p) / 2, 0, (1 - p) / 2] := by
      simp [set_action_probabilities, hact, htp, mkTransitionProbabilities, hd]
    rw [hres]
    refine ⟨rfl, rfl, by norm_num, by norm_num, by norm_num, ?_, ?_⟩
    · intro q hq
      fin_cases hq <;> linarith
    · simp only [List.sum_cons, List.sum_nil]
      ring
  · have hres : set_action_probabilities g 1 = [(1 - p) / 2, p, (1 - p) / 2, 0] := by
      simp [set_action_probabilities, hact, htp, mkTransitionProbabilities, hd]
    rw [hres]
    refine ⟨rfl, by norm_num, by norm_num, by norm_num, by norm_num, ?_, ?_⟩
    · intro q hq
      fin_cases hq <;> linarith
    · simp only [List.sum_cons, List.sum_nil]
      ring
  · have hres : set_action_probabilities g 2 = [0, (1 - p) / 2, p, (1 - p) / 2] := by
      simp [set_action_probabilities, hact, htp, mkTransitionProbabilities, hd]
    rw [hres]
    refine ⟨rfl, by norm_num, by norm_num, by norm_num, by norm_num, ?_, ?_⟩
    · intro q hq
      fin_cases hq <;> linarith
    · simp only [List.sum_cons, List.sum_nil]
      ring
  · have hres : set_action_probabilities g 3 = [(1 - p) / 2, 0, (1 - p) / 2, p] := by
      simp [set_action_probabilities, hact, htp, mkTransitionProbabilities, hd]
    rw [hres]
    refine ⟨rfl, by norm_num, by norm_num, by norm_num, by norm_num, ?_, ?_⟩
    · intro q hq
      fin_cases hq <;> linarith
    · simp only [List.sum_cons, List.sum_nil]
      ring

/-- Witness for `C3_action_probabilities` on the default 3x3 grid
(`proba = 0.8`) with intended action `0`. -/
theorem C3_action_probabilities_witness :
    gDefault.actions = [0, 1, 2, 3] ∧
    ((set_action_probabilities gDefault 0).length = 4 ∧
     (set_action_probabilities gDefault 0).getD 0 0 = 4 / 5 ∧
     (set_action_probabilities gDefault 0).getD ((0 + 1) % 4) 0 = (1 - 4 / 5) / 2 ∧
     (set_action_probabilities gDefault 0).getD ((0 + 3) % 4) 0 = (1 - 4 / 5) / 2 ∧
     (set_action_probabilities gDefault 0).getD ((0 + 2) % 4) 0 = 0 ∧
     (∀ q ∈ set_action_probabilities gDefault 0, 0 ≤ q) ∧
     (set_action_probabilities gDefault 0).sum = 1) :=
  ⟨rfl, C3_action_probabilities gDefault (4 / 5) (by norm_num) (by norm_num)
    rfl rfl 0 (by norm_num)⟩

/-- C4, evaluated at the failing input `GridWorld(height=2, width=3)`
with no rewards and no terminal states: the bottom-right cell —
`(x, y) = (width-1, height-1) = (2, 1)` — does get expected reward `0`,
but `terminal_states` is set to `[(height-1, width-1)] = [(1, 2)]`,
which is not the bottom-right cell and is even out of the grid bounds
under the code's own `(x, y)` convention (`y = 2 ≥ height = 2`); the
claim (and the code's intent, per its comment and the `0`-reward cell)
is that the bottom-right cell be registered. -/
theorem C4_default_terminal_eval :
    gNonSquareDefault.terminal_states = [(1, 2)] ∧
    ((1, 2) : Int × Int) ≠ (2, 1) ∧
    get_expected_reward gNonSquareDefault (0, 0) 0 (2, 1) = some 0 ∧
    get_expected_reward gNonSquareDefault (0, 0) 0 (0, 0) = some (-1) ∧
    ¬ in_bounds gNonSquareDefault (1, 2) := by
  refine ⟨by decide, by decide, by decide, by decide, by decide⟩

/-- C10: the constructor's barrier-set scan reads reward-grid row
`s % width` and column `s // width` for every encoded state `s` in
`[0, height * width)`.  When `height = width` every such access is
in bounds (row `< height`, column `< width`); and there is a grid with
`height ≠ width` (here `height = 2, width = 3`, at `s = 2`) where the
access is out of bounds. -/
theorem C10_barrier_scan_bounds :
    (∀ height width : Int, 0 < width → height = width →
      ∀ c ∈ barrierScanAccesses height width,
        0 ≤ c.2 ∧ c.2 < height ∧ 0 ≤ c.1 ∧ c.1 < width) ∧
    (∃ height width : Int, 0 < height ∧ 0 < width ∧ height ≠ width ∧
      ∃ c ∈ barrierScanAccesses height width,
        ¬ (c.2 < height ∧ c.1 < width)) := by
  constructor
  · intro height width hw hsq c hc
    unfold barrierScanAccesses at hc
    obtain ⟨s, hs, rfl⟩ := List.mem_map.mp hc
    rw [List.mem_range] at hs
    have hnn : (0 : Int) ≤ height * width := by
      rw [hsq]; positivity
    have hcast : (((height * width).toNat : Int)) = height * width :=
      Int.toNat_of_nonneg hnn
    have hs' : (s : Int) < height * width := by
      rw [show (height * width : Int) = ((height * width).toNat : Int) from hcast.symm]
      exact_mod_cast hs
    have hs'' : (s : Int) < width * width := by
      rw [hsq] at hs'; exact hs'
    refine ⟨Int.emod_nonneg _ (ne_of_gt hw), ?_, ?_, ?_⟩
    · rw [hsq]
      exact Int.emod_lt_of_pos _ hw
    · exact Int.ediv_nonneg (Int.natCast_nonneg s) (le_of_lt hw)
    · exact (Int.ediv_lt_iff_lt_mul hw).mpr hs''
  · exact ⟨2, 3, by norm_num, by norm_num, by norm_num, (0, 2), by decide, by decide⟩

/-- Witness for `C10_barrier_scan_bounds` (its universal part, which
carries hypotheses) on a 2x2 grid. -/
theorem C10_barrier_scan_bounds_witness :
    (0 : Int) < 2 ∧
    (∀ c ∈ barrierScanAccesses 2 2, 0 ≤ c.2 ∧ c.2 < 2 ∧ 0 ≤ c.1 ∧ c.1 < 2) :=
  ⟨by norm_num, C10_barrier_scan_bounds.1 2 2 (by norm_num) rfl⟩

/-- A successful Python list assignment leaves the list length
unchanged. -/
theorem pySet_length {α : Type} (l : List α) (i : Int) (a : α)
    (l' : List α) (h : pySet l i a = some l') : l'.length = l.length := by
  unfold pySet at h
  split_ifs at h
  all_goals
    obtain rfl := Option.some.inj h
  all_goals
    simp

/-- C7: whenever `get_feature_vector` returns a vector, its length
equals the length of the weight vector `get_weights` returns, in both
task modes (task "Same Blocks, Varying Values" maps over the weight
vector; the other task writes into a zero vector of length
`n_weights`). -/
theorem C7_feature_vector_length (g : GridWorld) (state : Int × Int)
    (action : Int) (next_state : Int × Int) (ws v : List ℚ)
    (hw : get_weights g = some ws)
    (hv : get_feature_vector g state action next_state = some v) :
    v.length = ws.length := by
  unfold get_feature_vector at hv
  rw [hw] at hv
  simp only [Option.some_bind] at hv
  split_ifs at hv
  · cases hr : get_reward g state action next_state with
    | none =>
        rw [hr] at hv
        exact absurd hv (by simp)
    | some r =>
        rw [hr] at hv
        obtain rfl := Option.some.inj hv
        simp
  · have := pySet_length _ _ _ _ hv
    simpa using this

/-- Witness for `C7_feature_vector_length` on the default 3x3 grid
(task "Varying Blocks, Same Values"). -/
theorem C7_feature_vector_length_witness :
    get_weights gDefault = some [-1, -1, -1, -1, -1, -1, -1, -1, 0] ∧
    get_feature_vector gDefault (0, 0) 0 (1, 0) =
      some [0, 0, 0, 1, 0, 0, 0, 0, 0] ∧
    ([0, 0, 0, 1, 0, 0, 0, 0, 0] : List ℚ).length =
      ([-1, -1, -1, -1, -1, -1, -1, -1, 0] : List ℚ).length :=
  ⟨by decide, by decide,
    C7_feature_vector_length gDefault (0, 0) 0 (1, 0) _ _ (by decide)
      (by decide)⟩

/-- Membership in `insertUnique x l` is membership in `x :: l`. -/
theorem mem_insertUnique (x a : ℚ) (l : List ℚ) :
    a ∈ insertUnique x l ↔ a = x ∨ a ∈ l := by
  induction l with
  | nil => simp [insertUnique]
  | cons y ys ih =>
      unfold insertUnique
      split_ifs with h1 h2
      · rw [List.mem_cons]
      · subst h2
        simp only [List.mem_cons]
        tauto
      · rw [List.mem_cons, ih, List.mem_cons]
        tauto

/-- Folding `insertUnique` over a list of values drawn from `{-1, 0}`
produces one of the four ascending duplicate-free lists over that
set. -/
theorem foldr_insertUnique_pm (l : List ℚ)
    (hsub : ∀ v ∈ l, v = -1 ∨ v = 0) :
    l.foldr insertUnique [] = [] ∨ l.foldr insertUnique [] = [-1] ∨
    l.foldr insertUnique [] = [0] ∨ l.foldr insertUnique [] = [-1, 0] := by
  induction l with
  | nil => left; rfl
  | cons x xs ih =>
      have hx := hsub x (List.mem_cons_self x xs)
      have hrest := ih (fun v hv => hsub v (List.mem_cons_of_mem _ hv))
      simp only [List.foldr_cons]
      rcases hrest with h | h | h | h <;> rw [h] <;>
        rcases hx with rfl | rfl <;> decide

/-- The values of the wrapped numeric grid are the numeric grid's
values. -/
theorem flatten_detReward_values (grid : List (List ℚ)) :
    ((grid.map (fun (row : List ℚ) => row.map detReward)).flatten.map
      (fun r => r.expected_value)) = grid.flatten := by
  induction grid with
  | nil => rfl
  | cons row rest ih =>
      simp only [List.map_cons, List.flatten_cons, List.map_append, ih,
        List.map_map]
      have hcomp : ((fun (r : StochasticReward) => r.expected_value) ∘ detReward) =
          fun (v : ℚ) => v := by
        funext v
        rfl
      rw [hcomp]
      simp

/-- C8: constructing with task "Same Blocks, Varying Values",
`distinct_rewards = 3` and a numeric reward grid whose values are
exactly `{-1, 0}` makes `get_weights` return `some [0, -1, 0]`: the
sorted unique reward values `[-1, 0]` in ascending order, with one zero
prepended to reach length 3. -/
theorem C8_weights_padded (height : Int) (width : Option Int) (proba : ℚ)
    (grid : List (List ℚ)) (tstates bstates : Option (List (Int × Int)))
    (initial : Option (Int × Int))
    (hsub : ∀ row ∈ grid, ∀ v ∈ row, v = -1 ∨ v = 0)
    (hneg : ∃ row ∈ grid, -1 ∈ row) (hzero : ∃ row ∈ grid, 0 ∈ row) :
    get_weights (GridWorld.make height width (some grid) proba tstates
      bstates initial (some "Same Blocks, Varying Values") 3) =
      some [0, -1, 0] := by
  set g := GridWorld.make height width (some grid) proba tstates bstates
    initial (some "Same Blocks, Varying Values") 3 with hg
  have htask : g.task = "Same Blocks, Varying Values" := rfl
  have hrew : g.rewards = grid.map (fun (row : List ℚ) => row.map detReward) := rfl
  have hdr : g.distinct_rewards = 3 := rfl
  have huniq : npUnique g.rewards = [-1, 0] := by
    unfold npUnique
    rw [hrew, flatten_detReward_values]
    have hsub' : ∀ v ∈ grid.flatten, v = -1 ∨ v = 0 := by
      intro v hv
      obtain ⟨row, hrow, hvr⟩ := List.mem_flatten.mp hv
      exact hsub row hrow v hvr
    have hmneg : (-1 : ℚ) ∈ grid.flatten.foldr insertUnique [] := by
      rw [show ∀ (l : List ℚ) (a : ℚ),
          (a ∈ l.foldr insertUnique []) = (a ∈ l) from ?_]
      · obtain ⟨row, hrow, hvr⟩ := hneg
        exact List.mem_flatten.mpr ⟨row, hrow, hvr⟩
      · intro l a
        apply propext
        induction l with
        | nil => simp
        | cons y ys ihy => simp only [List.foldr_cons, mem_insertUnique,
            List.mem_cons, ihy]
    have hmzero : (0 : ℚ) ∈ grid.flatten.foldr insertUnique [] := by
      rw [show ∀ (l : List ℚ) (a : ℚ),
          (a ∈ l.foldr insertUnique []) = (a ∈ l) from ?_]
      · obtain ⟨row, hrow, hvr⟩ := hzero
        exact List.mem_flatten.mpr ⟨row, hrow, hvr⟩
      · intro l a
        apply propext
        induction l with
        | nil => simp
        | cons y ys ihy => simp only [List.foldr_cons, mem_insertUnique,
            List.mem_cons, ihy]
    rcases foldr_insertUnique_pm grid.flatten hsub' with h | h | h | h <;>
      rw [h] at hmneg hmzero ⊢
    · simp at hmneg
    · norm_num at hmzero
    · norm_num at hmneg
  unfold get_weights
  rw [if_pos htask, huniq, hdr]
  norm_num

/-- Witness for `C8_weights_padded` on the 1x2 grid `[[-1, 0]]`. -/
theorem C8_weights_padded_witness :
    (∀ row ∈ [[(-1 : ℚ), 0]], ∀ v ∈ row, v = -1 ∨ v = 0) ∧
    get_weights (GridWorld.make 1 (some 2) (some [[(-1 : ℚ), 0]]) (4 / 5)
      none none none (some "Same Blocks, Varying Values") 3) =
      some [0, -1, 0] :=
  ⟨by decide,
    C8_weights_padded 1 (some 2) (4 / 5) [[(-1 : ℚ), 0]] none none none
      (by decide) (by decide) (by decide)⟩

end GridWorldSpec
